import Mathlib

/-!
# gqlgen-handlers: middleware composition core

Shallow embedding of `handlers.go` (package `handlers`) and of the business
handler of `example/main.go`.

Go code with effects is embedded as explicit state passing over a `World`
that holds everything a handler can read or change: the monotonic clock, the
prometheus instruments, standard output, the sinks and sources behind
`Writer` and `Reader` values, and the injected stores. A Go function that may
panic yields an `Outcome`: either it returns a value or it panics with a
value, and a panic skips the statements that follow it (the source has no
`defer` and no `recover`).
-/

namespace handlers

/-! ## Values -/

/-- Go `error` interface values: the nil interface, an `errors.New` string
error, and the two error types of the package. `*UserError` and
`*SystemError` are represented by the struct they point to, so that equality
of two `error` values stands for "the same error". -/
inductive error where
  | nil
  | errorString (s : String)
  | UserError (ID Message : String) (Err : error)
  | SystemError (ID Message : String) (Err : error)
deriving DecidableEq, Repr

/-- Method `Error()` of `*UserError` and `*SystemError` (and of
`errors.New` values). -/
def error.Error : error → String
  | .nil => ""
  | .errorString s => s
  | .UserError _ Message _ => Message
  | .SystemError _ Message _ => Message

/-- Go `interface{}` values as far as the package looks at them: context keys
and context values. -/
inductive Any where
  | nil
  | bool (b : Bool)
  | string (s : String)
  | int (n : Int)
deriving DecidableEq, Repr

/-- The comma-ok type assertion `x.(bool)`: the value and `true` when the
dynamic type of `x` is `bool`, the zero value `false` and `false` otherwise
(also for the nil interface). -/
def Any.assertBool : Any → Bool × Bool
  | .bool b => (b, true)
  | _ => (false, false)

/-- A `context.Context` as the chain of `context.WithValue` pairs, innermost
first. -/
abbrev Context := List (Any × Any)

/-- Go `context.Background()`. -/
def Context.Background : Context := []

/-- Go `context.WithValue(parent, key, val)`. -/
def Context.WithValue (parent : Context) (key val : Any) : Context :=
  (key, val) :: parent

/-- Go `ctx.Value(key)`: the value of the innermost pair with an equal key,
the nil interface when there is none. -/
def Context.Value : Context → Any → Any
  | [], _ => Any.nil
  | (k, v) :: parent, key => if k = key then v else Context.Value parent key

/-! ## Instruments, sinks and sources -/

/-- A `*prometheus.CounterVec` with the single label `method`. -/
structure CounterVec where
  id : Nat
deriving DecidableEq, Repr

/-- A `*prometheus.GaugeVec` with the single label `method`. -/
structure GaugeVec where
  id : Nat
deriving DecidableEq, Repr

/-- A `*prometheus.HistogramVec` with the single label `method`. -/
structure HistogramVec where
  id : Nat
deriving DecidableEq, Repr

/-- A `Writer`: a reference to a sink (a `*bytes.Buffer`). -/
structure Writer where
  id : Nat
deriving DecidableEq, Repr

/-- A `Reader`: a reference to a source (a `*bytes.Reader`). -/
structure Reader where
  id : Nat
deriving DecidableEq, Repr

/-- Everything a handler can read or change.

* `clock` is the monotonic clock reading in nanoseconds; `ticks` lists the
  amounts by which it advances before each of the coming readings.
* `counters`, `gauges` and `histograms` are the values of the instruments,
  per vector and per `method` label. A counter holds a count, a gauge the
  integer reached by `Inc` and `Dec`, a histogram the list of its
  observations, oldest first; an observation is kept as the exact quotient.
* `stdout` holds the lines printed so far.
* `sinks` holds the bytes written to each sink, `sources` the bytes not yet
  read from each source.
* `stores` is the state of the stores injected into business handlers. -/
structure World where
  clock : Nat
  ticks : List Nat
  counters : CounterVec → String → Nat
  gauges : GaugeVec → String → Int
  histograms : HistogramVec → String → List ℚ
  stdout : List String
  sinks : List (List Nat)
  sources : List (List Nat)
  stores : List Any

/-- How a call ends: it returns a value, or it panics with a value. -/
inductive Outcome (α : Type) where
  | ret (a : α)
  | panic (v : error)
deriving DecidableEq, Repr

/-- A Go computation: from the world before to its outcome and the world
after. -/
def Exec (α : Type) : Type := World → Outcome α × World

/-- Sequencing of Go statements: a panic ends the sequence. -/
def Exec.bind {α β : Type} (m : Exec α) (f : α → Exec β) : Exec β :=
  fun s =>
    match m s with
    | (Outcome.ret a, s1) => f a s1
    | (Outcome.panic v, s1) => (Outcome.panic v, s1)

instance : Monad Exec where
  pure a := fun s => (Outcome.ret a, s)
  bind := Exec.bind

/-- Go `panic(v)`. -/
def Exec.panic {α : Type} (v : error) : Exec α :=
  fun s => (Outcome.panic v, s)

/-- Source `type Handler func(ctx context.Context, w Writer, r Reader) error`. -/
abbrev Handler : Type := Context → Writer → Reader → Exec error

/-! ## Clock, instruments and output -/

/-- Go `time.Now()`, as far as its monotonic reading goes: the clock advances
by the next tick and is read. -/
def time.Now : Exec Nat :=
  fun s =>
    let t := s.clock + s.ticks.headD 0
    (Outcome.ret t, { s with clock := t, ticks := s.ticks.tail })

/-- Go `time.Since(start).Nanoseconds()`: the clock is read again and the
difference of the two monotonic readings is taken, in nanoseconds. -/
def time.Since (start : Nat) : Exec Int := do
  let t ← time.Now
  return (t : Int) - (start : Int)

/-- A `prometheus.Counter`: one label of a counter vector. -/
structure Counter where
  vec : CounterVec
  method : String

/-- A `prometheus.Gauge`: one label of a gauge vector. -/
structure Gauge where
  vec : GaugeVec
  method : String

/-- A `prometheus.Observer`: one label of a histogram vector. -/
structure Observer where
  vec : HistogramVec
  method : String

/-- Go `(*CounterVec).WithLabelValues(method)`. -/
def CounterVec.WithLabelValues (c : CounterVec) (method : String) : Counter :=
  ⟨c, method⟩

/-- Go `(*GaugeVec).WithLabelValues(method)`. -/
def GaugeVec.WithLabelValues (g : GaugeVec) (method : String) : Gauge :=
  ⟨g, method⟩

/-- Go `(*HistogramVec).WithLabelValues(method)`. -/
def HistogramVec.WithLabelValues (h : HistogramVec) (method : String) : Observer :=
  ⟨h, method⟩

/-- Go `Counter.Inc()`. -/
def Counter.Inc (c : Counter) : Exec Unit :=
  fun s =>
    (Outcome.ret (), { s with counters := fun v m =>
      if v = c.vec ∧ m = c.method then s.counters v m + 1 else s.counters v m })

/-- Go `Gauge.Inc()`. -/
def Gauge.Inc (g : Gauge) : Exec Unit :=
  fun s =>
    (Outcome.ret (), { s with gauges := fun v m =>
      if v = g.vec ∧ m = g.method then s.gauges v m + 1 else s.gauges v m })

/-- Go `Gauge.Dec()`. -/
def Gauge.Dec (g : Gauge) : Exec Unit :=
  fun s =>
    (Outcome.ret (), { s with gauges := fun v m =>
      if v = g.vec ∧ m = g.method then s.gauges v m - 1 else s.gauges v m })

/-- Go `Observer.Observe(x)`. -/
def Observer.Observe (h : Observer) (x : ℚ) : Exec Unit :=
  fun s =>
    (Outcome.ret (), { s with histograms := fun v m =>
      if v = h.vec ∧ m = h.method then s.histograms v m ++ [x] else s.histograms v m })

/-- Go `fmt.Println(n)` for an `int64`. -/
def fmt.Println (n : Int) : Exec Unit :=
  fun s => (Outcome.ret (), { s with stdout := s.stdout ++ [toString n] })

/-! ## Middlewares -/

/-- Source `WithAdmin` (handlers.go, lines 88 to 103). -/
def WithAdmin (next : Handler) : Handler :=
  fun ctx w r => do
    let (isAdmin, ok) := (ctx.Value (Any.string "is_admin")).assertBool
    if !isAdmin then
      return error.UserError "" "user not admin" error.nil
    if !ok then
      return error.SystemError "" "is_admin not in context" error.nil
    next ctx w r

/-- Source `WithMetrics` (handlers.go, lines 105 to 126). The observed value
`float64(ns) / 1000000` is kept as the exact quotient. -/
def WithMetrics (method : String) (calls : CounterVec) (errors : CounterVec)
    (saturation : GaugeVec) (duration : HistogramVec) (next : Handler) : Handler :=
  fun ctx w r => do
    let start ← time.Now
    (calls.WithLabelValues method).Inc
    (saturation.WithLabelValues method).Inc
    let err ← next ctx w r
    if err ≠ error.nil then
      (errors.WithLabelValues method).Inc
    (saturation.WithLabelValues method).Dec
    let ns ← time.Since start
    (duration.WithLabelValues method).Observe ((ns : ℚ) / 1000000)
    return err

/-- Source `WithLogging` (handlers.go, lines 128 to 139). -/
def WithLogging (next : Handler) : Handler :=
  fun ctx w r => do
    let now ← time.Now
    let err ← next ctx w r
    let since ← time.Since now
    fmt.Println since
    return err

/-- The world in which `WithMetrics` calls `next`: the world after lines 114
to 116 (`time.Now()`, `calls...Inc()`, `saturation...Inc()`). -/
def WithMetrics.entry (method : String) (calls : CounterVec) (saturation : GaugeVec)
    (s : World) : World :=
  ((saturation.WithLabelValues method).Inc
    ((calls.WithLabelValues method).Inc (time.Now s).2).2).2

/-- One of the two observing wrappers, with the arguments it is built from. -/
inductive Middleware where
  | metrics (method : String) (calls : CounterVec) (errors : CounterVec)
      (saturation : GaugeVec) (duration : HistogramVec)
  | logging

/-- The wrapper applied to a handler. -/
def Middleware.wrap : Middleware → Handler → Handler
  | Middleware.metrics method calls errors saturation duration, next =>
    WithMetrics method calls errors saturation duration next
  | Middleware.logging, next => WithLogging next

/-- A stack of wrappers around a handler, outermost first, as
`WithLogging(WithMetrics(..., OnboardStart(...)))` in `RunExampleResolver`. -/
def Middleware.stack : List Middleware → Handler → Handler
  | [], next => next
  | m :: ms, next => m.wrap (Middleware.stack ms next)

/-! ## Helper funcs -/

/-- The part of `encoding/json` the helpers use for values of one Go type.
The standard library is not part of the repository, so the codec is an
argument of the helpers: `Marshal` gives the encoding of a value or an error;
`Decode` takes the unread bytes of a source and gives the decoded value or an
error, and the bytes left unread. -/
structure JSON (α : Type) where
  Marshal : α → Except error (List Nat)
  Decode : List Nat → Except error α × List Nat

/-- Source `MustEncode` (handlers.go, lines 143 to 150): `Encode` writes the
encoding and a newline to the sink. -/
def MustEncode {α : Type} (json : JSON α) (w : Writer) (v : α) : Exec Unit :=
  fun s =>
    match json.Marshal v with
    | Except.ok b =>
      (Outcome.ret (), { s with sinks := s.sinks.set w.id (s.sinks.getD w.id [] ++ b ++ [10]) })
    | Except.error err => (Outcome.panic err, s)

/-- Source `MustDecode` (handlers.go, lines 152 to 159). -/
def MustDecode {α : Type} (json : JSON α) (r : Reader) : Exec α :=
  fun s =>
    match json.Decode (s.sources.getD r.id []) with
    | (Except.ok v, rest) => (Outcome.ret v, { s with sources := s.sources.set r.id rest })
    | (Except.error err, rest) => (Outcome.panic err, { s with sources := s.sources.set r.id rest })

/-- Source `MustNewReader` (handlers.go, lines 161 to 169): a new source
holding the encoding of `v`. -/
def MustNewReader {α : Type} (json : JSON α) (v : α) : Exec Reader :=
  fun s =>
    match json.Marshal v with
    | Except.ok b => (Outcome.ret ⟨s.sources.length⟩, { s with sources := s.sources ++ [b] })
    | Except.error err => (Outcome.panic err, s)

end handlers

/-! ## The business handler of the example (package `main`, example/main.go) -/

namespace main

open handlers

/-- Source `type OnboardStartRequest struct {}`. -/
structure OnboardStartRequest where
deriving DecidableEq, Repr

/-- Source `type OnboardStartResponse struct {}`. -/
structure OnboardStartResponse where
deriving DecidableEq, Repr

/-- Source `OnboardStart` (example/main.go, lines 85 to 109). The stores are
`interface{}` values the handler never looks at. -/
def OnboardStart (jsonReq : JSON OnboardStartRequest) (jsonResp : JSON OnboardStartResponse)
    (_userStore : Any) (_accountStore : Any) : Handler :=
  fun _ctx w r => do
    let _req ← MustDecode jsonReq r
    if true then
      return error.UserError "3c157e31-0a63-4f96-9c9c-19353024ce34" "wrong username"
        (error.errorString "example error")
    if true then
      return error.SystemError "8c24c633-1bba-4990-813c-b21d24d6e7f5"
        "database connection failure" (error.errorString "example error")
    let resp : OnboardStartResponse := {}
    MustEncode jsonResp w resp
    return error.nil


/-! ## Concrete inputs -/

/-- A world at process start: the clock at zero with two coming advances, all
instruments at zero, nothing printed, one empty sink, one empty source. -/
def startWorld : World where
  clock := 0
  ticks := [3, 4]
  counters := fun _ _ => 0
  gauges := fun _ _ => 0
  histograms := fun _ _ => []
  stdout := []
  sinks := [[]]
  sources := [[]]
  stores := []

/-- A handler that aborts the way `MustDecode` does on a malformed payload. -/
def abortingHandler : Handler :=
  fun _ctx _w _r => Exec.panic (error.errorString "unexpected end of JSON input")

/-- A handler that returns a `*UserError`, as `OnboardStart` does. -/
def rejectingHandler : Handler :=
  fun _ctx _w _r =>
    pure (error.UserError "3c157e31-0a63-4f96-9c9c-19353024ce34" "wrong username"
      (error.errorString "example error"))

/-- A handler that, as `OnboardStart` does, aborts when its source holds
nothing to decode and returns a `*UserError` otherwise. -/
def decodingHandler : Handler :=
  fun _ctx _w r s =>
    match s.sources.getD r.id [] with
    | [] => (Outcome.panic (error.errorString "EOF"), s)
    | _ :: _ =>
      (Outcome.ret (error.UserError "3c157e31-0a63-4f96-9c9c-19353024ce34" "wrong username"
        (error.errorString "example error")), s)

/-- The start world with the encoding of an empty request, the two bytes of
an empty JSON object, in its source. -/
def requestWorld : World :=
  { startWorld with sources := [[123, 125]] }

/-- A context whose `is_admin` value is the given boolean. -/
def adminContext (b : Bool) : Context :=
  Context.WithValue Context.Background (Any.string "is_admin") (Any.bool b)

end main

/-! ## Lemmas on sequencing and on the wrappers -/

namespace handlers

theorem Exec.pure_apply {α : Type} (a : α) (s : World) :
    (pure a : Exec α) s = (Outcome.ret a, s) := rfl

theorem Exec.bind_apply {α β : Type} (m : Exec α) (f : α → Exec β) (s : World) :
    (m >>= f) s = match m s with
      | (Outcome.ret a, s1) => f a s1
      | (Outcome.panic v, s1) => (Outcome.panic v, s1) := rfl

theorem Exec.map_apply {α β : Type} (f : α → β) (m : Exec α) (s : World) :
    (f <$> m) s = match m s with
      | (Outcome.ret a, s1) => (Outcome.ret (f a), s1)
      | (Outcome.panic v, s1) => (Outcome.panic v, s1) := rfl

/-- The world in which `next` is called, field by field. -/
theorem WithMetrics.entry_eq (M : String) (calls : CounterVec) (saturation : GaugeVec)
    (s : World) :
    WithMetrics.entry M calls saturation s =
      { s with
        clock := s.clock + s.ticks.headD 0
        ticks := s.ticks.tail
        counters := fun v m => if v = calls ∧ m = M then s.counters v m + 1 else s.counters v m
        gauges := fun v m => if v = saturation ∧ m = M then s.gauges v m + 1 else s.gauges v m } :=
  rfl

/-- When `next` panics, so does `WithMetrics`, in the world `next` left. -/
theorem WithMetrics_of_panic (M : String) (calls errors : CounterVec) (saturation : GaugeVec)
    (duration : HistogramVec) (H : Handler) (ctx : Context) (w : Writer) (r : Reader)
    (s s4 : World) (v : error)
    (h : H ctx w r (WithMetrics.entry M calls saturation s) = (Outcome.panic v, s4)) :
    WithMetrics M calls errors saturation duration H ctx w r s = (Outcome.panic v, s4) := by
  unfold WithMetrics
  simp only [WithMetrics.entry, time.Now, Counter.Inc, Gauge.Inc, CounterVec.WithLabelValues,
    GaugeVec.WithLabelValues] at h
  simp only [Exec.bind_apply, time.Now, Counter.Inc, Gauge.Inc, CounterVec.WithLabelValues,
    GaugeVec.WithLabelValues, h]

/-- When `next` returns, `WithMetrics` returns the same value, in the world
`next` left but for the instruments and the clock. -/
theorem WithMetrics_of_ret (M : String) (calls errors : CounterVec) (saturation : GaugeVec)
    (duration : HistogramVec) (H : Handler) (ctx : Context) (w : Writer) (r : Reader)
    (s s4 : World) (err : error)
    (h : H ctx w r (WithMetrics.entry M calls saturation s) = (Outcome.ret err, s4)) :
    WithMetrics M calls errors saturation duration H ctx w r s =
      (Outcome.ret err,
        { s4 with
          clock := s4.clock + s4.ticks.headD 0
          ticks := s4.ticks.tail
          counters := fun v m =>
            if err ≠ error.nil ∧ v = errors ∧ m = M then s4.counters v m + 1 else s4.counters v m
          gauges := fun v m =>
            if v = saturation ∧ m = M then s4.gauges v m - 1 else s4.gauges v m
          histograms := fun v m =>
            if v = duration ∧ m = M then
              s4.histograms v m ++
                [((((s4.clock + s4.ticks.headD 0 : Nat) : Int) -
                  ((s.clock + s.ticks.headD 0 : Nat) : Int) : Int) : ℚ) / 1000000]
            else s4.histograms v m }) := by
  unfold WithMetrics
  simp only [WithMetrics.entry, time.Now, Counter.Inc, Gauge.Inc, CounterVec.WithLabelValues,
    GaugeVec.WithLabelValues] at h
  simp only [Exec.bind_apply, time.Now, Counter.Inc, Gauge.Inc, CounterVec.WithLabelValues,
    GaugeVec.WithLabelValues, h]
  by_cases he : err = error.nil
  · subst he
    simp [Exec.bind_apply, Exec.pure_apply, Exec.map_apply, time.Since, time.Now, Gauge.Dec,
      Observer.Observe, GaugeVec.WithLabelValues, HistogramVec.WithLabelValues]
  · simp [he, Exec.bind_apply, Exec.pure_apply, Exec.map_apply, time.Since, time.Now, Gauge.Dec,
      Counter.Inc, Observer.Observe, GaugeVec.WithLabelValues, HistogramVec.WithLabelValues,
      CounterVec.WithLabelValues]

/-- When `next` panics, so does `WithLogging`, in the world `next` left. -/
theorem WithLogging_of_panic (H : Handler) (ctx : Context) (w : Writer) (r : Reader)
    (s s2 : World) (v : error) (h : H ctx w r (time.Now s).2 = (Outcome.panic v, s2)) :
    WithLogging H ctx w r s = (Outcome.panic v, s2) := by
  unfold WithLogging
  simp only [time.Now] at h
  simp only [Exec.bind_apply, time.Now, h]

/-- When `next` returns, `WithLogging` returns the same value, in the world
`next` left but for the clock and the printed line. -/
theorem WithLogging_of_ret (H : Handler) (ctx : Context) (w : Writer) (r : Reader)
    (s s2 : World) (err : error) (h : H ctx w r (time.Now s).2 = (Outcome.ret err, s2)) :
    WithLogging H ctx w r s =
      (Outcome.ret err,
        { s2 with
          clock := s2.clock + s2.ticks.headD 0
          ticks := s2.ticks.tail
          stdout := s2.stdout ++
            [toString (((s2.clock + s2.ticks.headD 0 : Nat) : Int) -
              ((s.clock + s.ticks.headD 0 : Nat) : Int))] }) := by
  unfold WithLogging
  simp only [time.Now] at h
  simp only [Exec.bind_apply, time.Now, h]
  simp [Exec.bind_apply, Exec.pure_apply, Exec.map_apply, time.Since, time.Now, fmt.Println]

/-- One wrapper calls the handler below it in a world with the same sinks,
sources, stores and output, forwards its outcome, and leaves the sinks,
sources and stores as that call left them. -/
theorem Middleware.wrap_forwards (m : Middleware) (H : Handler) (ctx : Context) (w : Writer)
    (r : Reader) (s : World) :
    ∃ s1 : World, s1.sinks = s.sinks ∧ s1.sources = s.sources ∧ s1.stores = s.stores ∧
      s1.stdout = s.stdout ∧
      (m.wrap H ctx w r s).1 = (H ctx w r s1).1 ∧
      (m.wrap H ctx w r s).2.sinks = (H ctx w r s1).2.sinks ∧
      (m.wrap H ctx w r s).2.sources = (H ctx w r s1).2.sources ∧
      (m.wrap H ctx w r s).2.stores = (H ctx w r s1).2.stores := by
  cases m with
  | metrics M calls errors saturation duration =>
    refine ⟨WithMetrics.entry M calls saturation s, rfl, rfl, rfl, rfl, ?_⟩
    show (WithMetrics M calls errors saturation duration H ctx w r s).1 = _ ∧ _
    rcases h : H ctx w r (WithMetrics.entry M calls saturation s) with ⟨o, s4⟩
    cases o with
    | ret err => simp [WithMetrics_of_ret M calls errors saturation duration H ctx w r s s4 err h, Middleware.wrap]
    | panic v => simp [WithMetrics_of_panic M calls errors saturation duration H ctx w r s s4 v h, Middleware.wrap]
  | logging =>
    refine ⟨(time.Now s).2, rfl, rfl, rfl, rfl, ?_⟩
    show (WithLogging H ctx w r s).1 = _ ∧ _
    rcases h : H ctx w r (time.Now s).2 with ⟨o, s2⟩
    cases o with
    | ret err => simp [WithLogging_of_ret H ctx w r s s2 err h, Middleware.wrap]
    | panic v => simp [WithLogging_of_panic H ctx w r s s2 v h, Middleware.wrap]

end handlers

/-! ## Authorization middleware -/

namespace handlers

/-- C1 (code as written): with a context that carries no `is_admin` value,
`WithAdmin` returns the `*UserError` "user not admin" and leaves the world
as it was: the `!isAdmin` test comes first and the zero value of a failed
assertion is `false`, so the `*SystemError` "is_admin not in context" of the
`!ok` branch is never returned. -/
theorem WithAdmin_missing_flag_is_UserError (next : Handler) (w : Writer) (r : Reader)
    (s : World) :
    WithAdmin next Context.Background w r s =
      (Outcome.ret (error.UserError "" "user not admin" error.nil), s) := by
  rfl

/-- C2: with a context whose `is_admin` value is the boolean `false`,
`WithAdmin H` returns the `*UserError` "user not admin" whatever `H` is, and
the world after is the world before: `H` is not invoked, nothing is written
to a sink, nothing is read from a source, no state is changed. -/
theorem WithAdmin_not_admin_rejects (H : Handler) (ctx : Context) (w : Writer) (r : Reader)
    (s : World) (hflag : ctx.Value (Any.string "is_admin") = Any.bool false) :
    WithAdmin H ctx w r s =
      (Outcome.ret (error.UserError "" "user not admin" error.nil), s) := by
  simp [WithAdmin, hflag, Any.assertBool]
  rfl

/-- The flag is `false` in `adminContext false`, and the handler that would
panic is not run from the start world. -/
theorem WithAdmin_not_admin_rejects_witness :
    (main.adminContext false).Value (Any.string "is_admin") = Any.bool false ∧
    WithAdmin main.abortingHandler (main.adminContext false) ⟨0⟩ ⟨0⟩ main.startWorld =
      (Outcome.ret (error.UserError "" "user not admin" error.nil), main.startWorld) :=
  ⟨by decide, WithAdmin_not_admin_rejects main.abortingHandler (main.adminContext false) ⟨0⟩ ⟨0⟩
    main.startWorld (by decide)⟩

/-- C3: with a context whose `is_admin` value is the boolean `true`,
`WithAdmin H` applied to `ctx`, `w`, `r` is `H` applied to `ctx`, `w`, `r`:
from every world it has the outcome of that one call of `H` (the value
returned or the panic) and the world that call leaves, nothing more. -/
theorem WithAdmin_admin_forwards (H : Handler) (ctx : Context) (w : Writer) (r : Reader)
    (hflag : ctx.Value (Any.string "is_admin") = Any.bool true) :
    WithAdmin H ctx w r = H ctx w r := by
  funext s
  simp [WithAdmin, hflag, Any.assertBool, Exec.bind_apply, Exec.pure_apply]

/-- The flag is `true` in `adminContext true`, and the rejecting handler is
reached. -/
theorem WithAdmin_admin_forwards_witness :
    (main.adminContext true).Value (Any.string "is_admin") = Any.bool true ∧
    WithAdmin main.rejectingHandler (main.adminContext true) ⟨0⟩ ⟨0⟩ =
      main.rejectingHandler (main.adminContext true) ⟨0⟩ ⟨0⟩ :=
  ⟨by decide, WithAdmin_admin_forwards main.rejectingHandler (main.adminContext true) ⟨0⟩ ⟨0⟩
    (by decide)⟩

/-! ## Instrumentation middleware -/

/-- C4: in an invocation of `WithMetrics` in which `H`, called in the entry
world, returns `err` and leaves the in-flight gauge for `M` as it found it:
in the world in which `H` is called, and still in the world `H` leaves, the
gauge for `M` is one above its value before the invocation; `WithMetrics`
returns `err`, and in the world it leaves the gauge for `M` has its value
from before the invocation. -/
theorem WithMetrics_in_flight_net_zero (M : String) (calls errors : CounterVec)
    (saturation : GaugeVec) (duration : HistogramVec) (H : Handler) (ctx : Context)
    (w : Writer) (r : Reader) (s s4 : World) (err : error)
    (hret : H ctx w r (WithMetrics.entry M calls saturation s) = (Outcome.ret err, s4))
    (hgauge : s4.gauges saturation M
      = (WithMetrics.entry M calls saturation s).gauges saturation M) :
    (WithMetrics.entry M calls saturation s).gauges saturation M = s.gauges saturation M + 1 ∧
    (H ctx w r (WithMetrics.entry M calls saturation s)).2.gauges saturation M
      = s.gauges saturation M + 1 ∧
    (WithMetrics M calls errors saturation duration H ctx w r s).1 = Outcome.ret err ∧
    (WithMetrics M calls errors saturation duration H ctx w r s).2.gauges saturation M
      = s.gauges saturation M := by
  have h1 : (WithMetrics.entry M calls saturation s).gauges saturation M
      = s.gauges saturation M + 1 := by
    simp [WithMetrics.entry_eq]
  rw [WithMetrics_of_ret M calls errors saturation duration H ctx w r s s4 err hret, hret]
  refine ⟨h1, by rw [hgauge, h1], rfl, ?_⟩
  simp [hgauge, h1]

/-- The decoding handler panics on an empty source, yet on the source of the
request world it returns and leaves the gauge alone: the gauge for "start" is
balanced. -/
theorem WithMetrics_in_flight_net_zero_witness :
    main.decodingHandler [] ⟨0⟩ ⟨0⟩ (WithMetrics.entry "start" ⟨0⟩ ⟨0⟩ main.requestWorld)
      = (Outcome.ret (error.UserError "3c157e31-0a63-4f96-9c9c-19353024ce34" "wrong username"
          (error.errorString "example error")),
        WithMetrics.entry "start" ⟨0⟩ ⟨0⟩ main.requestWorld) ∧
    (WithMetrics.entry "start" ⟨0⟩ ⟨0⟩ main.requestWorld).gauges ⟨0⟩ "start"
      = (WithMetrics.entry "start" ⟨0⟩ ⟨0⟩ main.requestWorld).gauges ⟨0⟩ "start" ∧
    ((WithMetrics.entry "start" ⟨0⟩ ⟨0⟩ main.requestWorld).gauges ⟨0⟩ "start"
      = main.requestWorld.gauges ⟨0⟩ "start" + 1 ∧
    (main.decodingHandler [] ⟨0⟩ ⟨0⟩
        (WithMetrics.entry "start" ⟨0⟩ ⟨0⟩ main.requestWorld)).2.gauges ⟨0⟩ "start"
      = main.requestWorld.gauges ⟨0⟩ "start" + 1 ∧
    (WithMetrics "start" ⟨0⟩ ⟨1⟩ ⟨0⟩ ⟨0⟩ main.decodingHandler [] ⟨0⟩ ⟨0⟩ main.requestWorld).1
      = Outcome.ret (error.UserError "3c157e31-0a63-4f96-9c9c-19353024ce34" "wrong username"
          (error.errorString "example error")) ∧
    (WithMetrics "start" ⟨0⟩ ⟨1⟩ ⟨0⟩ ⟨0⟩ main.decodingHandler [] ⟨0⟩ ⟨0⟩
        main.requestWorld).2.gauges ⟨0⟩ "start"
      = main.requestWorld.gauges ⟨0⟩ "start") :=
  ⟨rfl, rfl,
    WithMetrics_in_flight_net_zero "start" ⟨0⟩ ⟨1⟩ ⟨0⟩ ⟨0⟩ main.decodingHandler [] ⟨0⟩ ⟨0⟩
      main.requestWorld _ _ rfl rfl⟩

/-- C5 (as stated, refuted): `WithMetrics` around a handler that panics, from
the start world: the panic reaches the caller, the in-flight gauge for
"start" is not back at its value from before the invocation, and the
duration histogram for "start" has not received one observation. -/
theorem WithMetrics_panic_no_cleanup_counterexample :
    (WithMetrics "start" ⟨0⟩ ⟨1⟩ ⟨0⟩ ⟨0⟩ main.abortingHandler Context.Background ⟨0⟩ ⟨0⟩
        main.startWorld).1
      = Outcome.panic (error.errorString "unexpected end of JSON input") ∧
    (WithMetrics "start" ⟨0⟩ ⟨1⟩ ⟨0⟩ ⟨0⟩ main.abortingHandler Context.Background ⟨0⟩ ⟨0⟩
        main.startWorld).2.gauges ⟨0⟩ "start"
      ≠ main.startWorld.gauges ⟨0⟩ "start" ∧
    ((WithMetrics "start" ⟨0⟩ ⟨1⟩ ⟨0⟩ ⟨0⟩ main.abortingHandler Context.Background ⟨0⟩ ⟨0⟩
        main.startWorld).2.histograms ⟨0⟩ "start").length
      ≠ (main.startWorld.histograms ⟨0⟩ "start").length + 1 := by
  refine ⟨rfl, ?_, ?_⟩ <;> decide

/-- C5 (amended): in an invocation of `WithMetrics` in which `H`, called in
the entry world, panics with `v` and leaves the in-flight gauge and the
duration histogram for `M` as it found them: `WithMetrics` panics with `v`
in the world `H` left, and in that world the in-flight gauge for `M` is one
above its value before the invocation and the duration histogram for `M`
holds the observations it held before: the statements after the call of `H`
do not run. -/
theorem WithMetrics_panic_skips_cleanup (M : String) (calls errors : CounterVec)
    (saturation : GaugeVec) (duration : HistogramVec) (H : Handler) (ctx : Context)
    (w : Writer) (r : Reader) (s s4 : World) (v : error)
    (hpanic : H ctx w r (WithMetrics.entry M calls saturation s) = (Outcome.panic v, s4))
    (hgauge : s4.gauges saturation M
      = (WithMetrics.entry M calls saturation s).gauges saturation M)
    (hhist : s4.histograms duration M
      = (WithMetrics.entry M calls saturation s).histograms duration M) :
    WithMetrics M calls errors saturation duration H ctx w r s = (Outcome.panic v, s4) ∧
    (WithMetrics M calls errors saturation duration H ctx w r s).2.gauges saturation M
      = s.gauges saturation M + 1 ∧
    (WithMetrics M calls errors saturation duration H ctx w r s).2.histograms duration M
      = s.histograms duration M := by
  have h1 : (WithMetrics.entry M calls saturation s).gauges saturation M
      = s.gauges saturation M + 1 := by
    simp [WithMetrics.entry_eq]
  have h3 : (WithMetrics.entry M calls saturation s).histograms duration M
      = s.histograms duration M := by
    simp [WithMetrics.entry_eq]
  rw [WithMetrics_of_panic M calls errors saturation duration H ctx w r s s4 v hpanic]
  exact ⟨rfl, by rw [hgauge, h1], by rw [hhist, h3]⟩

/-- The decoding handler returns on a source that holds a request, yet on the
empty source of the start world it panics and leaves gauge and histogram
alone: the gauge for "start" stays raised and nothing is observed. -/
theorem WithMetrics_panic_skips_cleanup_witness :
    main.decodingHandler [] ⟨0⟩ ⟨0⟩ (WithMetrics.entry "start" ⟨0⟩ ⟨0⟩ main.startWorld)
      = (Outcome.panic (error.errorString "EOF"),
        WithMetrics.entry "start" ⟨0⟩ ⟨0⟩ main.startWorld) ∧
    (WithMetrics.entry "start" ⟨0⟩ ⟨0⟩ main.startWorld).gauges ⟨0⟩ "start"
      = (WithMetrics.entry "start" ⟨0⟩ ⟨0⟩ main.startWorld).gauges ⟨0⟩ "start" ∧
    (WithMetrics.entry "start" ⟨0⟩ ⟨0⟩ main.startWorld).histograms ⟨0⟩ "start"
      = (WithMetrics.entry "start" ⟨0⟩ ⟨0⟩ main.startWorld).histograms ⟨0⟩ "start" ∧
    (WithMetrics "start" ⟨0⟩ ⟨1⟩ ⟨0⟩ ⟨0⟩ main.decodingHandler [] ⟨0⟩ ⟨0⟩ main.startWorld
      = (Outcome.panic (error.errorString "EOF"),
        WithMetrics.entry "start" ⟨0⟩ ⟨0⟩ main.startWorld) ∧
    (WithMetrics "start" ⟨0⟩ ⟨1⟩ ⟨0⟩ ⟨0⟩ main.decodingHandler [] ⟨0⟩ ⟨0⟩
        main.startWorld).2.gauges ⟨0⟩ "start"
      = main.startWorld.gauges ⟨0⟩ "start" + 1 ∧
    (WithMetrics "start" ⟨0⟩ ⟨1⟩ ⟨0⟩ ⟨0⟩ main.decodingHandler [] ⟨0⟩ ⟨0⟩
        main.startWorld).2.histograms ⟨0⟩ "start"
      = main.startWorld.histograms ⟨0⟩ "start") :=
  ⟨rfl, rfl, rfl,
    WithMetrics_panic_skips_cleanup "start" ⟨0⟩ ⟨1⟩ ⟨0⟩ ⟨0⟩ main.decodingHandler [] ⟨0⟩ ⟨0⟩
      main.startWorld _ _ rfl rfl rfl⟩

/-- C6: when the call counter and the error counter are two instruments and
`H` leaves the call counter as it found it, one invocation of `WithMetrics`
raises the call counter for `M` by exactly one, whether `H` returns nil,
returns an error or panics, and leaves the call counter of every other label
as it was. -/
theorem WithMetrics_counts_one_call (M : String) (calls errors : CounterVec)
    (saturation : GaugeVec) (duration : HistogramVec) (H : Handler) (ctx : Context)
    (w : Writer) (r : Reader) (s : World) (hdistinct : calls ≠ errors)
    (hcalls : ∀ (s1 : World) (m : String),
      (H ctx w r s1).2.counters calls m = s1.counters calls m) :
    (WithMetrics M calls errors saturation duration H ctx w r s).2.counters calls M
      = s.counters calls M + 1 ∧
    ∀ m : String, m ≠ M →
      (WithMetrics M calls errors saturation duration H ctx w r s).2.counters calls m
        = s.counters calls m := by
  have h1 : ∀ m, (WithMetrics.entry M calls saturation s).counters calls m
      = if m = M then s.counters calls m + 1 else s.counters calls m := by
    intro m
    simp [WithMetrics.entry_eq]
  have h2 := hcalls (WithMetrics.entry M calls saturation s)
  rcases h : H ctx w r (WithMetrics.entry M calls saturation s) with ⟨o, s4⟩
  rw [h] at h2
  simp only at h2
  cases o with
  | ret err =>
    rw [WithMetrics_of_ret M calls errors saturation duration H ctx w r s s4 err h]
    refine ⟨?_, ?_⟩
    · simp [hdistinct, h2, h1]
    · intro m hm
      simp [hdistinct, h2, h1, hm]
  | panic v =>
    rw [WithMetrics_of_panic M calls errors saturation duration H ctx w r s s4 v h]
    refine ⟨?_, ?_⟩
    · simp [h2, h1]
    · intro m hm
      simp [h2, h1, hm]

/-- Two counters, and the aborting handler leaves the call counter alone: the
call is counted from the start world. -/
theorem WithMetrics_counts_one_call_witness :
    (⟨0⟩ : CounterVec) ≠ ⟨1⟩ ∧
    (∀ (s1 : World) (m : String),
      (main.abortingHandler [] ⟨0⟩ ⟨0⟩ s1).2.counters ⟨0⟩ m = s1.counters ⟨0⟩ m) ∧
    ((WithMetrics "start" ⟨0⟩ ⟨1⟩ ⟨0⟩ ⟨0⟩ main.abortingHandler [] ⟨0⟩ ⟨0⟩
        main.startWorld).2.counters ⟨0⟩ "start"
      = main.startWorld.counters ⟨0⟩ "start" + 1 ∧
    ∀ m : String, m ≠ "start" →
      (WithMetrics "start" ⟨0⟩ ⟨1⟩ ⟨0⟩ ⟨0⟩ main.abortingHandler [] ⟨0⟩ ⟨0⟩
          main.startWorld).2.counters ⟨0⟩ m
        = main.startWorld.counters ⟨0⟩ m) :=
  ⟨by decide, fun _ _ => rfl,
    WithMetrics_counts_one_call "start" ⟨0⟩ ⟨1⟩ ⟨0⟩ ⟨0⟩ main.abortingHandler [] ⟨0⟩ ⟨0⟩
      main.startWorld (by decide) (fun _ _ => rfl)⟩

/-- C7: when the call counter and the error counter are two instruments and
`H` leaves the error counter for `M` as it found it, an invocation of
`WithMetrics` in which `H` returns `err` returns `err` and raises the error
counter for `M` by exactly one if `err` is not nil (a `*UserError`, a
`*SystemError` or any other error) and by nothing if `err` is nil. -/
theorem WithMetrics_counts_errors (M : String) (calls errors : CounterVec)
    (saturation : GaugeVec) (duration : HistogramVec) (H : Handler) (ctx : Context)
    (w : Writer) (r : Reader) (s s4 : World) (err : error) (hdistinct : calls ≠ errors)
    (herrors : ∀ s1 : World, (H ctx w r s1).2.counters errors M = s1.counters errors M)
    (hret : H ctx w r (WithMetrics.entry M calls saturation s) = (Outcome.ret err, s4)) :
    (WithMetrics M calls errors saturation duration H ctx w r s).1 = Outcome.ret err ∧
    (WithMetrics M calls errors saturation duration H ctx w r s).2.counters errors M
      = s.counters errors M + (if err = error.nil then 0 else 1) := by
  have h1 : (WithMetrics.entry M calls saturation s).counters errors M
      = s.counters errors M := by
    simp [WithMetrics.entry_eq, Ne.symm hdistinct]
  have h2 := herrors (WithMetrics.entry M calls saturation s)
  rw [hret] at h2
  simp only at h2
  rw [WithMetrics_of_ret M calls errors saturation duration H ctx w r s s4 err hret]
  refine ⟨rfl, ?_⟩
  by_cases he : err = error.nil
  · simp [he, h2, h1]
  · simp [he, h2, h1]

/-- Two counters, and the rejecting handler returns its `*UserError` and leaves
the error counter alone: the error is counted from the start world. -/
theorem WithMetrics_counts_errors_witness :
    (⟨0⟩ : CounterVec) ≠ ⟨1⟩ ∧
    (∀ s1 : World, (main.rejectingHandler [] ⟨0⟩ ⟨0⟩ s1).2.counters ⟨1⟩ "start"
      = s1.counters ⟨1⟩ "start") ∧
    main.rejectingHandler [] ⟨0⟩ ⟨0⟩ (WithMetrics.entry "start" ⟨0⟩ ⟨0⟩ main.startWorld)
      = (Outcome.ret (error.UserError "3c157e31-0a63-4f96-9c9c-19353024ce34" "wrong username"
          (error.errorString "example error")),
        WithMetrics.entry "start" ⟨0⟩ ⟨0⟩ main.startWorld) ∧
    ((WithMetrics "start" ⟨0⟩ ⟨1⟩ ⟨0⟩ ⟨0⟩ main.rejectingHandler [] ⟨0⟩ ⟨0⟩ main.startWorld).1
      = Outcome.ret (error.UserError "3c157e31-0a63-4f96-9c9c-19353024ce34" "wrong username"
          (error.errorString "example error")) ∧
    (WithMetrics "start" ⟨0⟩ ⟨1⟩ ⟨0⟩ ⟨0⟩ main.rejectingHandler [] ⟨0⟩ ⟨0⟩
        main.startWorld).2.counters ⟨1⟩ "start"
      = main.startWorld.counters ⟨1⟩ "start" +
        (if error.UserError "3c157e31-0a63-4f96-9c9c-19353024ce34" "wrong username"
          (error.errorString "example error") = error.nil then 0 else 1)) :=
  ⟨by decide, fun _ => rfl, rfl,
    WithMetrics_counts_errors "start" ⟨0⟩ ⟨1⟩ ⟨0⟩ ⟨0⟩ main.rejectingHandler [] ⟨0⟩ ⟨0⟩
      main.startWorld _ _ (by decide) (fun _ => rfl) rfl⟩

/-- C8: `WithMetrics` and `WithLogging` each call `H` once, with the `ctx`,
`w` and `r` they were given, in a world that differs from the one they were
called in by the clock and the instruments only; their outcome is the
outcome of that call (nil, the same `*UserError`, the same `*SystemError`,
any other error, or the panic), and the sinks, sources and stores they leave
are the ones that call left. The same holds for every stack of the two
wrappers around `H`. -/
theorem middlewares_forward_outcome :
    (∀ (M : String) (calls errors : CounterVec) (saturation : GaugeVec)
        (duration : HistogramVec) (H : Handler) (ctx : Context) (w : Writer) (r : Reader)
        (s : World),
      (WithMetrics M calls errors saturation duration H ctx w r s).1
        = (H ctx w r (WithMetrics.entry M calls saturation s)).1 ∧
      (WithMetrics M calls errors saturation duration H ctx w r s).2.sinks
        = (H ctx w r (WithMetrics.entry M calls saturation s)).2.sinks ∧
      (WithMetrics M calls errors saturation duration H ctx w r s).2.sources
        = (H ctx w r (WithMetrics.entry M calls saturation s)).2.sources ∧
      (WithMetrics M calls errors saturation duration H ctx w r s).2.stores
        = (H ctx w r (WithMetrics.entry M calls saturation s)).2.stores) ∧
    (∀ (H : Handler) (ctx : Context) (w : Writer) (r : Reader) (s : World),
      (WithLogging H ctx w r s).1 = (H ctx w r (time.Now s).2).1 ∧
      (WithLogging H ctx w r s).2.sinks = (H ctx w r (time.Now s).2).2.sinks ∧
      (WithLogging H ctx w r s).2.sources = (H ctx w r (time.Now s).2).2.sources ∧
      (WithLogging H ctx w r s).2.stores = (H ctx w r (time.Now s).2).2.stores) ∧
    (∀ (ms : List Middleware) (H : Handler) (ctx : Context) (w : Writer) (r : Reader)
        (s : World),
      ∃ s1 : World, s1.sinks = s.sinks ∧ s1.sources = s.sources ∧ s1.stores = s.stores ∧
        s1.stdout = s.stdout ∧
        (Middleware.stack ms H ctx w r s).1 = (H ctx w r s1).1 ∧
        (Middleware.stack ms H ctx w r s).2.sinks = (H ctx w r s1).2.sinks ∧
        (Middleware.stack ms H ctx w r s).2.sources = (H ctx w r s1).2.sources ∧
        (Middleware.stack ms H ctx w r s).2.stores = (H ctx w r s1).2.stores) := by
  refine ⟨?_, ?_, ?_⟩
  · intro M calls errors saturation duration H ctx w r s
    rcases h : H ctx w r (WithMetrics.entry M calls saturation s) with ⟨o, s4⟩
    cases o with
    | ret err => simp [WithMetrics_of_ret M calls errors saturation duration H ctx w r s s4 err h]
    | panic v => simp [WithMetrics_of_panic M calls errors saturation duration H ctx w r s s4 v h]
  · intro H ctx w r s
    rcases h : H ctx w r (time.Now s).2 with ⟨o, s2⟩
    cases o with
    | ret err => simp [WithLogging_of_ret H ctx w r s s2 err h]
    | panic v => simp [WithLogging_of_panic H ctx w r s s2 v h]
  · intro ms H ctx w r
    induction ms with
    | nil =>
      intro s
      exact ⟨s, rfl, rfl, rfl, rfl, rfl, rfl, rfl, rfl⟩
    | cons m ms ih =>
      intro s
      obtain ⟨s1, a1, a2, a3, a4, b1, b2, b3, b4⟩ :=
        Middleware.wrap_forwards m (Middleware.stack ms H) ctx w r s
      obtain ⟨s2, c1, c2, c3, c4, d1, d2, d3, d4⟩ := ih s1
      refine ⟨s2, c1.trans a1, c2.trans a2, c3.trans a3, c4.trans a4, ?_, ?_, ?_, ?_⟩
      · exact b1.trans d1
      · exact b2.trans d2
      · exact b3.trans d3
      · exact b4.trans d4

/-- C9: in an invocation of `WithMetrics` in which `H`, called in the entry
world, returns, leaves the duration histogram for `M` as it found it and does
not set the clock back: `WithMetrics` returns what `H` returned and appends
exactly one observation to the duration histogram for `M`; the observation
is the clock reading taken once `H` has returned minus the reading taken
before `H` was called, in nanoseconds, divided by 1000000, and it is not
negative. -/
theorem WithMetrics_observes_duration (M : String) (calls errors : CounterVec)
    (saturation : GaugeVec) (duration : HistogramVec) (H : Handler) (ctx : Context)
    (w : Writer) (r : Reader) (s s4 : World) (err : error)
    (hret : H ctx w r (WithMetrics.entry M calls saturation s) = (Outcome.ret err, s4))
    (hhist : s4.histograms duration M
      = (WithMetrics.entry M calls saturation s).histograms duration M)
    (hclock : (WithMetrics.entry M calls saturation s).clock ≤ s4.clock) :
    (WithMetrics M calls errors saturation duration H ctx w r s).1 = Outcome.ret err ∧
    ∃ ns : Int,
      ns = ((time.Now (H ctx w r (WithMetrics.entry M calls saturation s)).2).2.clock : Int)
        - ((time.Now s).2.clock : Int) ∧
      0 ≤ ns ∧
      (WithMetrics M calls errors saturation duration H ctx w r s).2.histograms duration M
        = s.histograms duration M ++ [(ns : ℚ) / 1000000] ∧
      (0 : ℚ) ≤ (ns : ℚ) / 1000000 := by
  have h1 : (WithMetrics.entry M calls saturation s).histograms duration M
      = s.histograms duration M := by
    simp [WithMetrics.entry_eq]
  have h0 : (WithMetrics.entry M calls saturation s).clock = s.clock + s.ticks.headD 0 := by
    simp [WithMetrics.entry_eq]
  rw [WithMetrics_of_ret M calls errors saturation duration H ctx w r s s4 err hret, hret]
  rw [h0] at hclock
  have hns : (0 : Int) ≤ ((s4.clock + s4.ticks.headD 0 : Nat) : Int)
      - ((s.clock + s.ticks.headD 0 : Nat) : Int) := by
    have : s.clock + s.ticks.headD 0 ≤ s4.clock + s4.ticks.headD 0 :=
      le_trans hclock (Nat.le_add_right _ _)
    omega
  refine ⟨rfl, ((s4.clock + s4.ticks.headD 0 : Nat) : Int)
      - ((s.clock + s.ticks.headD 0 : Nat) : Int), ?_, hns, ?_, ?_⟩
  · simp [time.Now]
  · simp [hhist, h1]
  · exact div_nonneg (by exact_mod_cast hns) (by norm_num)

/-- The decoding handler panics on an empty source, yet on the source of the
request world it returns, leaves the histogram alone and does not set the
clock back: one observation is made. -/
theorem WithMetrics_observes_duration_witness :
    main.decodingHandler [] ⟨0⟩ ⟨0⟩ (WithMetrics.entry "start" ⟨0⟩ ⟨0⟩ main.requestWorld)
      = (Outcome.ret (error.UserError "3c157e31-0a63-4f96-9c9c-19353024ce34" "wrong username"
          (error.errorString "example error")),
        WithMetrics.entry "start" ⟨0⟩ ⟨0⟩ main.requestWorld) ∧
    (WithMetrics.entry "start" ⟨0⟩ ⟨0⟩ main.requestWorld).histograms ⟨0⟩ "start"
      = (WithMetrics.entry "start" ⟨0⟩ ⟨0⟩ main.requestWorld).histograms ⟨0⟩ "start" ∧
    (WithMetrics.entry "start" ⟨0⟩ ⟨0⟩ main.requestWorld).clock
      ≤ (WithMetrics.entry "start" ⟨0⟩ ⟨0⟩ main.requestWorld).clock ∧
    ((WithMetrics "start" ⟨0⟩ ⟨1⟩ ⟨0⟩ ⟨0⟩ main.decodingHandler [] ⟨0⟩ ⟨0⟩ main.requestWorld).1
      = Outcome.ret (error.UserError "3c157e31-0a63-4f96-9c9c-19353024ce34" "wrong username"
          (error.errorString "example error")) ∧
    ∃ ns : Int,
      ns = ((time.Now (main.decodingHandler [] ⟨0⟩ ⟨0⟩
          (WithMetrics.entry "start" ⟨0⟩ ⟨0⟩ main.requestWorld)).2).2.clock : Int)
        - ((time.Now main.requestWorld).2.clock : Int) ∧
      0 ≤ ns ∧
      (WithMetrics "start" ⟨0⟩ ⟨1⟩ ⟨0⟩ ⟨0⟩ main.decodingHandler [] ⟨0⟩ ⟨0⟩
          main.requestWorld).2.histograms ⟨0⟩ "start"
        = main.requestWorld.histograms ⟨0⟩ "start" ++ [(ns : ℚ) / 1000000] ∧
      (0 : ℚ) ≤ (ns : ℚ) / 1000000) :=
  ⟨rfl, rfl, le_refl _,
    WithMetrics_observes_duration "start" ⟨0⟩ ⟨1⟩ ⟨0⟩ ⟨0⟩ main.decodingHandler [] ⟨0⟩ ⟨0⟩
      main.requestWorld _ _ rfl rfl (le_refl _)⟩

end handlers

/-! ## The business handler -/

namespace main

open handlers

/-- C10 (code as written): a source is built by `MustNewReader` from a
request value and `OnboardStart` is run on it. When the value encodes and the
encoding decodes, the handler returns the `*UserError` "wrong username"; when
one of the two fails, the helper panics with the failure. In no case is the
outcome a nil error. -/
theorem OnboardStart_never_returns_nil (jsonReq : JSON OnboardStartRequest)
    (jsonResp : JSON OnboardStartResponse) (userStore accountStore : Any)
    (v : OnboardStartRequest) (ctx : Context) (w : Writer) (s : World) :
    ((MustNewReader jsonReq v >>= fun r =>
        OnboardStart jsonReq jsonResp userStore accountStore ctx w r) s).1
      = (match jsonReq.Marshal v with
        | Except.error e => Outcome.panic e
        | Except.ok b =>
          match (jsonReq.Decode b).1 with
          | Except.error e => Outcome.panic e
          | Except.ok _ =>
            Outcome.ret (error.UserError "3c157e31-0a63-4f96-9c9c-19353024ce34"
              "wrong username" (error.errorString "example error"))) ∧
    ((MustNewReader jsonReq v >>= fun r =>
        OnboardStart jsonReq jsonResp userStore accountStore ctx w r) s).1
      ≠ Outcome.ret error.nil := by
  have key : ((MustNewReader jsonReq v >>= fun r =>
        OnboardStart jsonReq jsonResp userStore accountStore ctx w r) s).1
      = (match jsonReq.Marshal v with
        | Except.error e => Outcome.panic e
        | Except.ok b =>
          match (jsonReq.Decode b).1 with
          | Except.error e => Outcome.panic e
          | Except.ok _ =>
            Outcome.ret (error.UserError "3c157e31-0a63-4f96-9c9c-19353024ce34"
              "wrong username" (error.errorString "example error"))) := by
    simp only [Exec.bind_apply, MustNewReader]
    cases hm : jsonReq.Marshal v with
    | error e => rfl
    | ok b =>
      simp only [OnboardStart, Exec.bind_apply, MustDecode]
      have hget : (s.sources ++ [b]).getD s.sources.length [] = b := by
        simp [List.getD]
      simp only [hget]
      rcases hd : jsonReq.Decode b with ⟨res, rest⟩
      cases res with
      | error e => rfl
      | ok req => rfl
  refine ⟨key, ?_⟩
  rw [key]
  cases jsonReq.Marshal v with
  | error e => simp
  | ok b =>
    simp only
    cases (jsonReq.Decode b).1 with
    | error e => simp
    | ok req => simp

end main
